import Mathlib

/-!
Verification of the statistical analytics and anomaly-detection core of the
smart-energy-grid-management-system repository.

The Go sources embedded here are:
* `src/lambda-functions/analytics-processing/main.go` — the daily aggregation
  lambda (`calculateDailyAnalytics`, `calculateHourlyData`, `derivePeakHour`,
  `findMaxMin`, `safeAverage`, `averageFloat`, `stddevFloat`, `max0`,
  round helpers, and the `Handler` control flow);
* `src/unnamed/part_002` — the anomaly-detection lambda (`detectAnomaly`,
  `calculateMean`, `calculateStdDev`);
* `src/unnamed/part_001` — a legacy variant of the daily aggregation lambda
  (`findMax`, `findMin` seeded from `0` / `math.MaxFloat64`);
* `src/internal/service/service.go` — `GetDailySummary`.

Float model: Go `float64` values are modelled by `GFloat`, a sum of an exact
rational (`fin`), the two infinities, and `NaN`.  Arithmetic on finite values
is exact rational arithmetic (no rounding and no overflow to infinity); the
special values follow IEEE-754 propagation rules, and the comparison operators
mirror Go's `<`, `<=`, `==` (every comparison involving NaN is false, `==` on
NaN is false).  Decimal literals such as `0.4` are modelled by the exact
rational `2/5`.  Signed zero is not distinguished.  No claim below depends on
binary rounding, overflow, or the sign of zero.
-/

/-- Model of a Go `float64`: an exact rational, `+Inf`, `-Inf`, or `NaN`. -/
inductive GFloat where
  | fin : ℚ → GFloat
  | pinf : GFloat
  | ninf : GFloat
  | nan : GFloat
deriving DecidableEq

namespace GFloat

/-- `math.IsNaN`. -/
def isNaN : GFloat → Bool
  | nan => true
  | _ => false

/-- `math.IsInf(x, 0)` (either infinity). -/
def isInf : GFloat → Bool
  | pinf => true
  | ninf => true
  | _ => false

/-- A finite (neither NaN nor infinite) float. -/
def isFinite : GFloat → Bool
  | fin _ => true
  | _ => false

/-- IEEE negation. -/
def neg : GFloat → GFloat
  | fin q => fin (-q)
  | pinf => ninf
  | ninf => pinf
  | nan => nan

/-- IEEE addition (exact on finite values; `+Inf + -Inf = NaN`). -/
def add : GFloat → GFloat → GFloat
  | nan, _ => nan
  | _, nan => nan
  | fin a, fin b => fin (a + b)
  | pinf, ninf => nan
  | ninf, pinf => nan
  | pinf, _ => pinf
  | _, pinf => pinf
  | ninf, _ => ninf
  | _, ninf => ninf

/-- IEEE subtraction. -/
def sub (a b : GFloat) : GFloat := add a (neg b)

/-- IEEE multiplication (exact on finite values; `Inf * 0 = NaN`). -/
def mul : GFloat → GFloat → GFloat
  | nan, _ => nan
  | _, nan => nan
  | fin a, fin b => fin (a * b)
  | pinf, pinf => pinf
  | pinf, ninf => ninf
  | ninf, pinf => ninf
  | ninf, ninf => pinf
  | pinf, fin b => if b = 0 then nan else if 0 < b then pinf else ninf
  | ninf, fin b => if b = 0 then nan else if 0 < b then ninf else pinf
  | fin a, pinf => if a = 0 then nan else if 0 < a then pinf else ninf
  | fin a, ninf => if a = 0 then nan else if 0 < a then ninf else pinf

/-- IEEE division (exact on finite values; `x/0` is a signed infinity for
`x ≠ 0` and NaN for `0/0`; `finite/Inf = 0`; `Inf/Inf = NaN`). -/
def div : GFloat → GFloat → GFloat
  | nan, _ => nan
  | _, nan => nan
  | fin a, fin b =>
      if b = 0 then (if a = 0 then nan else if 0 < a then pinf else ninf)
      else fin (a / b)
  | fin _, pinf => fin 0
  | fin _, ninf => fin 0
  | pinf, fin b => if 0 ≤ b then pinf else ninf
  | ninf, fin b => if 0 ≤ b then ninf else pinf
  | pinf, _ => nan
  | ninf, _ => nan

/-- Go `<` on floats: false whenever either side is NaN. -/
def goLt : GFloat → GFloat → Bool
  | nan, _ => false
  | _, nan => false
  | fin a, fin b => decide (a < b)
  | ninf, ninf => false
  | ninf, _ => true
  | _, ninf => false
  | pinf, _ => false
  | fin _, pinf => true

/-- Go `<=` on floats: false whenever either side is NaN. -/
def goLe : GFloat → GFloat → Bool
  | nan, _ => false
  | _, nan => false
  | fin a, fin b => decide (a ≤ b)
  | ninf, _ => true
  | _, ninf => false
  | _, pinf => true
  | pinf, fin _ => false

/-- Go `>` on floats. -/
def goGt (a b : GFloat) : Bool := goLt b a

/-- Go `>=` on floats. -/
def goGe (a b : GFloat) : Bool := goLe b a

/-- Go `==` on floats: false whenever either side is NaN. -/
def goEq : GFloat → GFloat → Bool
  | nan, _ => false
  | _, nan => false
  | fin a, fin b => decide (a = b)
  | pinf, pinf => true
  | ninf, ninf => true
  | _, _ => false

/-- Go `!=` on floats: true whenever either side is NaN. -/
def goNe (a b : GFloat) : Bool := !(goEq a b)

end GFloat

/-- Round half away from zero on rationals, the behaviour of Go `math.Round`
restricted to finite values. -/
def roundHalfAwayQ (q : ℚ) : ℤ :=
  if 0 ≤ q then ⌊q + 1/2⌋ else -⌊(-q) + 1/2⌋

/-- Go `math.Round`: half away from zero; NaN and infinities pass through. -/
def roundGo : GFloat → GFloat
  | GFloat.fin q => GFloat.fin (roundHalfAwayQ q)
  | x => x

/-- Embeds `round2` from `main.go`: `math.Round(x*100) / 100`. -/
def round2 (x : GFloat) : GFloat :=
  (roundGo (x.mul (GFloat.fin 100))).div (GFloat.fin 100)

/-- Embeds `round3` from `main.go`: `math.Round(x*1000) / 1000`. -/
def round3 (x : GFloat) : GFloat :=
  (roundGo (x.mul (GFloat.fin 1000))).div (GFloat.fin 1000)

/-- Embeds `roundSlice` from `main.go`: round every element to `places`
decimal places. -/
def roundSlice (xs : List GFloat) (places : Nat) : List GFloat :=
  xs.map (fun v => (roundGo (v.mul (GFloat.fin (10 ^ places)))).div (GFloat.fin (10 ^ places)))

/-- Rational approximation of the square root used to model `math.Sqrt` on
finite nonnegative inputs (`Nat.sqrt` on the scaled numerator).  The special
values follow IEEE: NaN for negative arguments and NaN, `+Inf` for `+Inf`.
No claim in this development depends on the numeric value of a square root;
only its NaN/Inf behaviour and determinism matter here. -/
def ratSqrtApprox (q : ℚ) : ℚ :=
  (Nat.sqrt (q.num.toNat * q.den) : ℚ) / (q.den : ℚ)

/-- Model of Go `math.Sqrt`. -/
def sqrtGo : GFloat → GFloat
  | GFloat.fin q => if q < 0 then GFloat.nan else GFloat.fin (ratSqrtApprox q)
  | GFloat.pinf => GFloat.pinf
  | GFloat.ninf => GFloat.nan
  | GFloat.nan => GFloat.nan

/-- `math.MaxFloat64` as an exact rational. -/
def maxFloat64Q : ℚ := 2 ^ 1024 - 2 ^ 971

/-- One meter sample, the `Reading` struct shared by the two lambdas
(`main.go` and `src/unnamed/part_002`; the anomaly lambda's extra
`Status`/`Temperature` fields are never read by the embedded functions and
are omitted).  `timestamp` is unix seconds. -/
structure Reading where
  facilityID : String
  meterID : String
  timestamp : Int
  voltage : GFloat
  current : GFloat
  powerKW : GFloat
deriving DecidableEq

/-- `aggregator.Point` from the external analytics library: a value together
with its timestamp (unix seconds stand in for `time.Time`). -/
structure Point where
  value : GFloat
  timestamp : Int
deriving DecidableEq

/-- The `HourlyData` per-hour bucket from `main.go`. -/
structure HourlyData where
  count : Nat
  totalPower : GFloat
  avgPower : GFloat
  maxPower : GFloat
deriving DecidableEq

/-- The Go zero value of `HourlyData`, returned by a map read on a missing
key. -/
def HourlyData.zero : HourlyData := ⟨0, GFloat.fin 0, GFloat.fin 0, GFloat.fin 0⟩

/-- The `DailyAnalytics` record from `main.go`.  The two Go maps are modelled
by association lists: `costBreakdown` with its two fixed keys, and
`hourlyData` as the association list built by `calculateHourlyData` (Go map
insertion order; the key set and key-value association are exactly the Go
map contents). -/
structure DailyAnalytics where
  date : String
  readingCount : Nat
  totalConsumption : GFloat
  totalConsumptionMWh : GFloat
  averagePower : GFloat
  peakPower : GFloat
  minPower : GFloat
  movingAverage : List GFloat
  estimatedCost : GFloat
  costBreakdown : List (String × GFloat)
  avgVoltage : GFloat
  voltageStdDev : GFloat
  avgCurrent : GFloat
  powerFactor : GFloat
  peakHour : String
  hourlyData : List (String × HourlyData)
  createdAt : Int
deriving DecidableEq

/-- Modelled from the spec: `aggregator.Sum` (§4.1) of the external
`energy-grid-analytics-go` library, which is not under `src/`.  Arithmetic
sum of the values, `0` for empty input. -/
def aggregatorSum (points : List Point) : GFloat :=
  points.foldl (fun acc p => acc.add p.value) (GFloat.fin 0)

/-- Modelled from the spec: `aggregator.Average` (§4.1) of the external
library, `Sum/len`.  Only ever called through `safeAverage`, which guards
the empty case. -/
def aggregatorAverage (points : List Point) : GFloat :=
  (aggregatorSum points).div (GFloat.fin (points.length : ℚ))

/-- Modelled from the spec: `aggregator.MovingAverage` (§4.1) of the external
library: a sequence the same length as `points` whose element `i` is the mean
of the trailing `window` values ending at `i`, averaging over however many
points exist so far while a full window is not yet available. -/
def movingAverage (points : List Point) (window : Nat) : List GFloat :=
  (List.range points.length).map (fun i =>
    let lo := i + 1 - window
    let vals := ((points.drop lo).take (i + 1 - lo)).map Point.value
    (vals.foldl GFloat.add (GFloat.fin 0)).div (GFloat.fin (vals.length : ℚ)))

/-- Modelled from the spec: `converter.KWhToMWh` (§4.2) of the external
library: `kwh / 1000`. -/
def kwhToMWh (kwh : GFloat) : GFloat := kwh.div (GFloat.fin 1000)

/-- Modelled from the spec: `converter.CalculateCost` (§4.2) of the external
library: `kwh * ratePerKWh`; the tier label is carried through for labeling
only. -/
def calculateCost (kwh rate : GFloat) (_tier : String) : GFloat := kwh.mul rate

/-- Modelled from the spec: `converter.CalculateEfficiency` (§4.2) of the
external library: `realPower / apparentPower` when `apparentPower > 0`,
else `0`. -/
def calculateEfficiency (apparentPower realPower : GFloat) : GFloat :=
  if apparentPower.goGt (GFloat.fin 0) then realPower.div apparentPower else GFloat.fin 0

/-- Embeds `safeAverage` from `main.go`: `0` for an empty slice, otherwise
`aggregator.Average`. -/
def safeAverage (points : List Point) : GFloat :=
  if points.length = 0 then GFloat.fin 0 else aggregatorAverage points

/-- One step of the `findMaxMin` extremum scan in `main.go`: update the
running maximum and minimum with the next point's value. -/
def mmStep (mm : GFloat × GFloat) (q : Point) : GFloat × GFloat :=
  ((if q.value.goGt mm.1 then q.value else mm.1),
   (if q.value.goLt mm.2 then q.value else mm.2))

/-- Embeds `findMaxMin` from `main.go`: `(0, 0)` for an empty slice,
otherwise an extremum scan over the tail with both accumulators seeded from
the first element's value. -/
def findMaxMin (points : List Point) : GFloat × GFloat :=
  match points with
  | [] => (GFloat.fin 0, GFloat.fin 0)
  | p :: rest => rest.foldl mmStep (p.value, p.value)

/-- Embeds `findMax` from the legacy daily-aggregation lambda
(`src/unnamed/part_001`): the running maximum is seeded from `0`. -/
def findMaxLegacy (points : List Point) : GFloat :=
  points.foldl (fun mx p => if p.value.goGt mx then p.value else mx) (GFloat.fin 0)

/-- Embeds `findMin` from the legacy daily-aggregation lambda
(`src/unnamed/part_001`): the running minimum is seeded from
`math.MaxFloat64`. -/
def findMinLegacy (points : List Point) : GFloat :=
  points.foldl (fun mn p => if p.value.goLt mn then p.value else mn) (GFloat.fin maxFloat64Q)

/-- Hour of day of a unix timestamp, in UTC: models
`time.Unix(ts, 0).Format("15")`'s numeric value (the lambda runs with a UTC
clock). -/
def hourOfDay (ts : Int) : Nat := (ts.emod 86400).toNat / 3600

/-- The two-digit hour string `"00"`..`"23"` produced by `Format("15")`. -/
def hourString (ts : Int) : String :=
  (if hourOfDay ts < 10 then "0" else "") ++ toString (hourOfDay ts)

/-- Go map read with the zero value for a missing key (`hourly[h]`). -/
def alGet : List (String × HourlyData) → String → HourlyData
  | [], _ => HourlyData.zero
  | e :: rest, k => if e.1 = k then e.2 else alGet rest k

/-- Go map write (`hourly[h] = data`): replace the entry when the key is
present, append it otherwise. -/
def alPut : List (String × HourlyData) → String → HourlyData → List (String × HourlyData)
  | [], k, v => [(k, v)]
  | e :: rest, k, v => if e.1 = k then (k, v) :: rest else e :: alPut rest k v

/-- One iteration of the first loop of `calculateHourlyData` in `main.go`:
bucket the reading by hour, increment the count, accumulate the total and
update the running maximum. -/
def hourlyStep (m : List (String × HourlyData)) (r : Reading) : List (String × HourlyData) :=
  let h := hourString r.timestamp
  let data := alGet m h
  alPut m h
    { data with
      count := data.count + 1,
      totalPower := data.totalPower.add r.powerKW,
      maxPower := if r.powerKW.goGt data.maxPower then r.powerKW else data.maxPower }

/-- Embeds `calculateHourlyData` from `main.go`: the bucketing loop followed
by the average-setting loop (which only touches buckets with a positive
count, as in the source). -/
def calculateHourlyData (readings : List Reading) : List (String × HourlyData) :=
  let m := readings.foldl hourlyStep []
  m.map (fun e =>
    if 0 < e.2.count
    then (e.1, { e.2 with avgPower := e.2.totalPower.div (GFloat.fin (e.2.count : ℚ)) })
    else e)

/-- The `sort.Slice` comparator of `derivePeakHour` in `main.go`: on equal
max power compare hour strings, otherwise put the larger max power first. -/
def peakLess (a b : String × HourlyData) : Bool :=
  if a.2.maxPower.goEq b.2.maxPower then decide (a.1 < b.1) else a.2.maxPower.goGt b.2.maxPower

/-- Keep the smaller of the accumulator and the next entry with respect to
`peakLess` (the entry replaces the accumulator only when strictly smaller,
so the earlier of two equivalent entries is kept). -/
def peakPick (acc x : String × HourlyData) : String × HourlyData :=
  if peakLess x acc then x else acc

/-- Embeds `derivePeakHour` from `main.go`: `""` for an empty map, otherwise
sort the entries by `peakLess` and take the first.  Sorting and taking the
head selects the minimum entry with respect to the comparator, modelled here
by a direct left fold; this agrees with `sort.Slice` whenever `peakLess` is
a strict weak order on the entries, in particular whenever the max powers
are not NaN and the hour keys are distinct — which holds for every map
`calculateHourlyData` builds (proved below). -/
def derivePeakHour (hourly : List (String × HourlyData)) : String :=
  match hourly with
  | [] => ""
  | e :: rest => (rest.foldl peakPick e).1

/-- Embeds `averageFloat` from `main.go` (the Go version takes an index
closure and a length; the list of projected values is passed here). -/
def averageFloat (xs : List GFloat) : GFloat :=
  if xs.length = 0 then GFloat.fin 0
  else (xs.foldl GFloat.add (GFloat.fin 0)).div (GFloat.fin (xs.length : ℚ))

/-- Embeds `stddevFloat` from `main.go`: population standard deviation about
the supplied mean, `0` for an empty list. -/
def stddevFloat (xs : List GFloat) (mean : GFloat) : GFloat :=
  if xs.length = 0 then GFloat.fin 0
  else
    sqrtGo ((xs.foldl (fun v x => v.add ((x.sub mean).mul (x.sub mean))) (GFloat.fin 0)).div
      (GFloat.fin (xs.length : ℚ)))

/-- Embeds `max0` from `main.go`: clamp negative, NaN and infinite values
to `0`. -/
def max0 (x : GFloat) : GFloat :=
  if x.goLt (GFloat.fin 0) then GFloat.fin 0
  else if x.isNaN || x.isInf then GFloat.fin 0
  else x

/-- Embeds `calculateDailyAnalytics` from `main.go`.  `now` stands for the
`time.Now().Unix()` call that fills `CreatedAt`; every other field is a pure
function of `readings` and `date`. -/
def calculateDailyAnalytics (readings : List Reading) (date : String) (now : Int) : DailyAnalytics :=
  let points := readings.map (fun r => Point.mk r.powerKW r.timestamp)
  let totalPower := aggregatorSum points
  let avgPower := safeAverage points
  let movingAvg := movingAverage points 12
  let totalConsumptionMWh := kwhToMWh totalPower
  let peakCost := calculateCost (totalPower.mul (GFloat.fin (2/5))) (GFloat.fin (1/5)) "peak"
  let offPeakCost := calculateCost (totalPower.mul (GFloat.fin (3/5))) (GFloat.fin (1/5)) "offpeak"
  let totalCost := peakCost.add offPeakCost
  let pm := findMaxMin points
  let hourly := calculateHourlyData readings
  let peakHour := derivePeakHour hourly
  let avgV := averageFloat (readings.map Reading.voltage)
  let avgI := averageFloat (readings.map Reading.current)
  let voltageStd := stddevFloat (readings.map Reading.voltage) avgV
  let apparent := max0 (avgV.mul avgI)
  let powerFactor :=
    if apparent.goGt (GFloat.fin 0) then calculateEfficiency apparent avgPower else GFloat.fin 0
  { date := date
    readingCount := readings.length
    totalConsumption := round2 totalPower
    totalConsumptionMWh := round3 totalConsumptionMWh
    averagePower := round2 avgPower
    peakPower := round2 pm.1
    minPower := round2 pm.2
    movingAverage := roundSlice movingAvg 2
    estimatedCost := round2 totalCost
    costBreakdown := [("peak", round2 peakCost), ("offpeak", round2 offPeakCost)]
    avgVoltage := round2 avgV
    voltageStdDev := round3 voltageStd
    avgCurrent := round2 avgI
    powerFactor := round3 powerFactor
    peakHour := peakHour
    hourlyData := hourly
    createdAt := now }

/-- `anomaly.Reading` from the external analytics library: a consumption
value and a timestamp. -/
structure AnomalyReading where
  consumption : GFloat
  timestamp : Int
deriving DecidableEq

/-- The `AnomalyResult` struct from the anomaly-detection lambda
(`src/unnamed/part_002`). -/
structure AnomalyResult where
  isAnomaly : Bool
  currentPower : GFloat
  mean : GFloat
  stdDev : GFloat
  threshold : GFloat
  deviationPercent : GFloat
  severity : String
  reason : String
deriving DecidableEq

/-- Embeds `calculateMean` from `src/unnamed/part_002`: arithmetic mean of
the power values, `0` for an empty slice. -/
def calculateMean (readings : List Reading) : GFloat :=
  if readings.length = 0 then GFloat.fin 0
  else
    (readings.foldl (fun acc r => acc.add r.powerKW) (GFloat.fin 0)).div
      (GFloat.fin (readings.length : ℚ))

/-- Embeds `calculateStdDev` from `src/unnamed/part_002`: population
standard deviation of the power values about the supplied mean, `0` for an
empty slice. -/
def calculateStdDev (readings : List Reading) (mean : GFloat) : GFloat :=
  if readings.length = 0 then GFloat.fin 0
  else
    sqrtGo
      ((readings.foldl (fun v r => v.add ((r.powerKW.sub mean).mul (r.powerKW.sub mean)))
          (GFloat.fin 0)).div (GFloat.fin (readings.length : ℚ)))

/-- Renders a float with two decimals, modelling the `%.2f` verb of
`fmt.Sprintf` (used only inside the free-text `reason` field; no claim
depends on it). -/
def fmtFixed2 (x : GFloat) : String :=
  match x with
  | GFloat.fin q =>
      let n := roundHalfAwayQ (q * 100)
      let a := n.natAbs
      (if n < 0 then "-" else "") ++ toString (a / 100) ++ "." ++
        (if a % 100 < 10 then "0" else "") ++ toString (a % 100)
  | GFloat.pinf => "+Inf"
  | GFloat.ninf => "-Inf"
  | GFloat.nan => "NaN"

/-- Embeds `detectAnomaly` from `src/unnamed/part_002`.  The spike and
outlier sub-detectors (`anomaly.AnomalyDetector.DetectSpikes` /
`DetectOutliers`) live in the external `energy-grid-analytics-go` library,
which is not part of this repository; they are taken as function parameters,
since `detectAnomaly` uses nothing about them beyond how many points each
reports.  Every theorem below quantifies over them. -/
def detectAnomaly (spikes outliers : List AnomalyReading → List AnomalyReading)
    (current : Reading) (historical : List Reading) (window0 : Int) (sigma0 : GFloat) :
    AnomalyResult :=
  let window : Int := if window0 ≤ 0 then 24 else window0
  let sigma := if sigma0.goLe (GFloat.fin 0) then GFloat.fin 2 else sigma0
  let lib :=
    historical.map (fun r => AnomalyReading.mk r.powerKW r.timestamp) ++
      [AnomalyReading.mk current.powerKW current.timestamp]
  let sp := spikes lib
  let ol := outliers lib
  let mean := calculateMean historical
  let std := calculateStdDev historical mean
  let devPct :=
    if mean.goNe (GFloat.fin 0)
    then ((current.powerKW.sub mean).div mean).mul (GFloat.fin 100)
    else GFloat.fin 0
  let isAnomaly0 : Bool := 0 < sp.length || 0 < ol.length
  let severity0 : String :=
    if mean.goGt (GFloat.fin 0) && current.powerKW.goGe (mean.mul (GFloat.fin 2))
    then "critical"
    else if mean.goGt (GFloat.fin 0) && current.powerKW.goGe (mean.mul (GFloat.fin (3/2)))
    then "high"
    else "low"
  let threshold0 := mean.add (std.mul sigma)
  let threshold := if threshold0.isNaN || threshold0.isInf then GFloat.fin 0 else threshold0
  let noHistory : Bool := historical.isEmpty && current.powerKW.goGt (GFloat.fin 0)
  { isAnomaly := if noHistory then true else isAnomaly0
    currentPower := current.powerKW
    mean := mean
    stdDev := std
    threshold := threshold
    deviationPercent := devPct
    severity := if noHistory then "low" else severity0
    reason :=
      "Window=" ++ toString window ++ " sigma=" ++ fmtFixed2 sigma ++
        " spikes=" ++ toString sp.length ++ " outliers=" ++ toString ol.length }

/-- The steps of `Handler` in `main.go` that touch the outside world or run
the aggregation, used to state which of them execute on a given path. -/
inductive HandlerStep where
  | queryReadings : HandlerStep
  | aggregate : HandlerStep
  | storeSummary : HandlerStep
  | generateReport : HandlerStep
deriving DecidableEq

/-- The `LambdaResponse` of `main.go` with its `map[string]interface{}` body
flattened into the keys the handler actually writes (`message`, `date`,
`analytics`, `report_url` on success paths; `error` on the failure path). -/
structure LambdaResponse where
  statusCode : Int
  message : Option String
  date : Option String
  analytics : Option DailyAnalytics
  reportURL : Option String
  errorMsg : Option String
deriving DecidableEq

/-- Result of one `Handler` run: the response, the Go `error` return value,
and the trace of steps that executed. -/
structure HandlerOutcome where
  response : LambdaResponse
  err : Option String
  steps : List HandlerStep
deriving DecidableEq

/-- Embeds the control flow of `Handler` in `main.go`.  The I/O collaborators
are collapsed into parameters: `queryResult` stands for the return of
`getReadingsForDate` (including its bad-date and query failures),
`storeResult` and `reportResult` for the two side-effect calls — both of
which are non-fatal in the source (`storeAnalyticsSummary` only logs a
warning; a failed `generateReport` leaves the report URL empty).
`yesterday` stands for the wall-clock default date and `now` for
`time.Now().Unix()`. -/
def handlerRun (eventDate eventFacility yesterday : String)
    (queryResult : Except String (List Reading))
    (_storeResult : Except String Unit) (reportResult : Except String String)
    (now : Int) : HandlerOutcome :=
  let date := if eventDate = "" then yesterday else eventDate
  let _facilityID := if eventFacility = "" then "facility-001" else eventFacility
  match queryResult with
  | Except.error e =>
      { response := ⟨500, none, none, none, none, some e⟩
        err := some e
        steps := [HandlerStep.queryReadings] }
  | Except.ok readings =>
      if readings.length = 0 then
        { response := ⟨200, some "No data to process", some date, none, none, none⟩
          err := none
          steps := [HandlerStep.queryReadings] }
      else
        let analytics := calculateDailyAnalytics readings date now
        let reportURL := match reportResult with | Except.ok u => u | Except.error _ => ""
        { response :=
            ⟨200, some "Analytics processed successfully", some date, some analytics,
              some reportURL, none⟩
          err := none
          steps := [HandlerStep.queryReadings, HandlerStep.aggregate,
            HandlerStep.storeSummary, HandlerStep.generateReport] }

/-- The `DailySummary` struct of `src/internal/service/service.go`
(`date` as unix seconds). -/
structure DailySummary where
  date : Int
  totalConsumption : GFloat
  peakPower : GFloat
  averagePower : GFloat
  readingCount : Nat
deriving DecidableEq

/-- Embeds `GetDailySummary` from `src/internal/service/service.go`; the
storage query is collapsed into the `readingsResult` parameter.  Zero
readings yield a zero-valued summary with a nil error; a failed query yields
a wrapped error. -/
def getDailySummary (readingsResult : Except String (List Reading)) (date : Int) :
    Except String DailySummary :=
  match readingsResult with
  | Except.error e => Except.error ("failed to get readings: " ++ e)
  | Except.ok readings =>
      if readings.length = 0 then Except.ok ⟨date, GFloat.fin 0, GFloat.fin 0, GFloat.fin 0, 0⟩
      else
        let tp :=
          readings.foldl
            (fun (acc : GFloat × GFloat) r =>
              (acc.1.add r.powerKW, if r.powerKW.goGt acc.2 then r.powerKW else acc.2))
            (GFloat.fin 0, GFloat.fin 0)
        Except.ok ⟨date, tp.1, tp.2, tp.1.div (GFloat.fin (readings.length : ℚ)), readings.length⟩

/-- Total reading count recorded in an hourly map: the sum of the bucket
counts. -/
def countSum (m : List (String × HourlyData)) : Nat :=
  (m.map (fun e => e.2.count)).sum

/-- The severity ladder exactly as the words of claim C1 state it: `critical`
requires `mean > 0`, but the `high` rung is stated without a `mean > 0`
guard.  Written from the claim's words (not from the source) for the
refutation below; the source guards both rungs with `mean > 0`. -/
def claimC1Ladder (mean cur : GFloat) : String :=
  if mean.goGt (GFloat.fin 0) && cur.goGe (mean.mul (GFloat.fin 2)) then "critical"
  else if cur.goGe (mean.mul (GFloat.fin (3/2))) then "high"
  else "low"

/-- The three-reading scenario of claim C3: two readings in hour 00 with
powers 10 and 20, one reading in hour 01 with power 5. -/
def scenarioReadings : List Reading :=
  [⟨"f", "m", 0, GFloat.fin 1, GFloat.fin 1, GFloat.fin 10⟩,
   ⟨"f", "m", 100, GFloat.fin 1, GFloat.fin 1, GFloat.fin 20⟩,
   ⟨"f", "m", 3600, GFloat.fin 1, GFloat.fin 1, GFloat.fin 5⟩]

theorem GFloat.add_fin (a b : ℚ) : (GFloat.fin a).add (GFloat.fin b) = GFloat.fin (a + b) := rfl

theorem GFloat.mul_fin (a b : ℚ) : (GFloat.fin a).mul (GFloat.fin b) = GFloat.fin (a * b) := rfl

theorem GFloat.sub_fin (a b : ℚ) : (GFloat.fin a).sub (GFloat.fin b) = GFloat.fin (a - b) := by
  show (GFloat.fin a).add (GFloat.fin (-b)) = _
  rw [GFloat.add_fin, ← sub_eq_add_neg]

theorem GFloat.div_fin (a b : ℚ) (h : b ≠ 0) :
    (GFloat.fin a).div (GFloat.fin b) = GFloat.fin (a / b) := by
  simp [GFloat.div, h]

theorem GFloat.goLt_fin (a b : ℚ) : (GFloat.fin a).goLt (GFloat.fin b) = decide (a < b) := rfl

theorem GFloat.goLe_fin (a b : ℚ) : (GFloat.fin a).goLe (GFloat.fin b) = decide (a ≤ b) := rfl

theorem GFloat.goGt_fin (a b : ℚ) : (GFloat.fin a).goGt (GFloat.fin b) = decide (b < a) := rfl

theorem GFloat.goGe_fin (a b : ℚ) : (GFloat.fin a).goGe (GFloat.fin b) = decide (b ≤ a) := rfl

theorem GFloat.goEq_fin (a b : ℚ) : (GFloat.fin a).goEq (GFloat.fin b) = decide (a = b) := rfl

theorem GFloat.goNe_fin (a b : ℚ) : (GFloat.fin a).goNe (GFloat.fin b) = !decide (a = b) := rfl

theorem GFloat.isNaN_fin (a : ℚ) : (GFloat.fin a).isNaN = false := rfl

theorem GFloat.isInf_fin (a : ℚ) : (GFloat.fin a).isInf = false := rfl

theorem roundGo_fin (a : ℚ) : roundGo (GFloat.fin a) = GFloat.fin (roundHalfAwayQ a) := rfl

theorem sqrtGo_zero : sqrtGo (GFloat.fin 0) = GFloat.fin 0 := by
  norm_num [sqrtGo, ratSqrtApprox]

theorem GFloat.goLt_irrefl (a : GFloat) : a.goLt a = false := by
  cases a <;> simp [GFloat.goLt]

theorem GFloat.goLt_trans {a b c : GFloat} (hab : a.goLt b = true) (hbc : b.goLt c = true) :
    a.goLt c = true := by
  cases a <;> cases b <;> cases c <;> simp_all [GFloat.goLt]
  exact lt_trans hab hbc

theorem GFloat.goEq_true_iff {a b : GFloat} :
    a.goEq b = true ↔ a = b ∧ a.isNaN = false := by
  cases a <;> cases b <;> simp [GFloat.goEq, GFloat.isNaN]

theorem GFloat.goLt_trichotomy {a b : GFloat} (ha : a.isNaN = false) (hb : b.isNaN = false) :
    a.goLt b = true ∨ a = b ∨ b.goLt a = true := by
  cases a <;> cases b <;> simp_all [GFloat.goLt, GFloat.isNaN]
  exact lt_trichotomy _ _

theorem GFloat.goLt_asymm {a b : GFloat} (hab : a.goLt b = true) : b.goLt a = false := by
  cases a <;> cases b <;> simp_all [GFloat.goLt]
  exact le_of_lt hab

theorem GFloat.goLe_of_goLt {a b : GFloat} (hab : a.goLt b = true) : a.goLe b = true := by
  cases a <;> cases b <;> simp_all [GFloat.goLt, GFloat.goLe]
  exact le_of_lt hab

theorem GFloat.goLe_refl {a : GFloat} (ha : a.isNaN = false) : a.goLe a = true := by
  cases a <;> simp_all [GFloat.goLe, GFloat.isNaN]

theorem GFloat.not_nan_of_goLt_left {a b : GFloat} (h : a.goLt b = true) : a.isNaN = false := by
  cases a <;> cases b <;> simp_all [GFloat.goLt, GFloat.isNaN]

theorem GFloat.not_nan_of_goLt_right {a b : GFloat} (h : a.goLt b = true) : b.isNaN = false := by
  cases a <;> cases b <;> simp_all [GFloat.goLt, GFloat.isNaN]

theorem GFloat.goEq_eq_decide {a b : GFloat} (ha : a.isNaN = false) :
    a.goEq b = decide (a = b) := by
  cases a <;> cases b <;> simp_all [GFloat.goEq, GFloat.isNaN]

theorem peakLess_eq_true_iff {a b : String × HourlyData}
    (ha : a.2.maxPower.isNaN = false) (_hb : b.2.maxPower.isNaN = false) :
    peakLess a b = true ↔
      (b.2.maxPower.goLt a.2.maxPower = true ∨ (a.2.maxPower = b.2.maxPower ∧ a.1 < b.1)) := by
  unfold peakLess
  rw [GFloat.goEq_eq_decide ha]
  by_cases h : a.2.maxPower = b.2.maxPower
  · simp [h, GFloat.goLt_irrefl]
  · simp [h, GFloat.goGt]

theorem peakLess_irrefl (a : String × HourlyData) : peakLess a a = false := by
  unfold peakLess
  cases a.2.maxPower <;> simp [GFloat.goEq, GFloat.goGt, GFloat.goLt, lt_irrefl]

theorem peakLess_congr {a b : String × HourlyData} (c : String × HourlyData)
    (h1 : a.1 = b.1) (h2 : a.2.maxPower = b.2.maxPower) : peakLess a c = peakLess b c := by
  unfold peakLess
  rw [h1, h2]

theorem peakLess_trans {a b c : String × HourlyData}
    (ha : a.2.maxPower.isNaN = false) (hb : b.2.maxPower.isNaN = false)
    (hc : c.2.maxPower.isNaN = false)
    (hab : peakLess a b = true) (hbc : peakLess b c = true) : peakLess a c = true := by
  rw [peakLess_eq_true_iff ha hb] at hab
  rw [peakLess_eq_true_iff hb hc] at hbc
  rw [peakLess_eq_true_iff ha hc]
  rcases hab with hab | ⟨hab1, hab2⟩
  · rcases hbc with hbc | ⟨hbc1, hbc2⟩
    · exact Or.inl (GFloat.goLt_trans hbc hab)
    · exact Or.inl (by rw [← hbc1]; exact hab)
  · rcases hbc with hbc | ⟨hbc1, hbc2⟩
    · exact Or.inl (by rw [hab1]; exact hbc)
    · exact Or.inr ⟨hab1.trans hbc1, lt_trans hab2 hbc2⟩

theorem peakLess_antisymm {a b : String × HourlyData}
    (ha : a.2.maxPower.isNaN = false) (hb : b.2.maxPower.isNaN = false)
    (hab : peakLess a b = false) (hba : peakLess b a = false) :
    a.2.maxPower = b.2.maxPower ∧ a.1 = b.1 := by
  have hab' : ¬ peakLess a b = true := by simp [hab]
  have hba' : ¬ peakLess b a = true := by simp [hba]
  rw [peakLess_eq_true_iff ha hb] at hab'
  rw [peakLess_eq_true_iff hb ha] at hba'
  push_neg at hab' hba'
  rcases GFloat.goLt_trichotomy ha hb with h | h | h
  · exact absurd h hba'.1
  · exact ⟨h, le_antisymm (le_of_not_lt (hba'.2 h.symm)) (le_of_not_lt (hab'.2 h))⟩
  · exact absurd h hab'.1

theorem foldPick_mem (rest : List (String × HourlyData)) (e : String × HourlyData) :
    rest.foldl peakPick e ∈ e :: rest := by
  induction rest generalizing e with
  | nil => simp
  | cons x xs ih =>
      have h := ih (peakPick e x)
      have hx : peakPick e x = x ∨ peakPick e x = e := by
        unfold peakPick
        by_cases hc : peakLess x e = true
        · simp [hc]
        · simp [hc]
      simp only [List.foldl_cons, List.mem_cons]
      rcases List.mem_cons.mp h with h1 | h1
      · rcases hx with h2 | h2
        · exact Or.inr (Or.inl (h1.trans h2))
        · exact Or.inl (h1.trans h2)
      · exact Or.inr (Or.inr h1)

theorem foldPick_minimal (rest : List (String × HourlyData)) :
    ∀ (e : String × HourlyData), (∀ z ∈ e :: rest, z.2.maxPower.isNaN = false) →
    ∀ x ∈ e :: rest, peakLess x (rest.foldl peakPick e) = false := by
  induction rest with
  | nil =>
      intro e _ x hx
      simp at hx
      subst hx
      exact peakLess_irrefl x
  | cons y ys ih =>
      intro e hnn
      have he : e.2.maxPower.isNaN = false := hnn e (by simp)
      have hy : y.2.maxPower.isNaN = false := hnn y (by simp)
      have hnn' : ∀ z ∈ peakPick e y :: ys, z.2.maxPower.isNaN = false := by
        intro z hz
        rcases List.mem_cons.mp hz with hz1 | hz1
        · subst hz1
          unfold peakPick
          by_cases hc : peakLess y e = true
          · simpa [hc] using hy
          · simpa [hc] using he
        · exact hnn z (by simp [hz1])
      have ihm := ih (peakPick e y) hnn'
      have hrmem := foldPick_mem ys (peakPick e y)
      have hr : (ys.foldl peakPick (peakPick e y)).2.maxPower.isNaN = false := hnn' _ hrmem
      have hself := ihm (peakPick e y) (by simp)
      intro x hx
      simp only [List.foldl_cons]
      rcases List.mem_cons.mp hx with hx1 | hx1
      · rw [hx1]
        by_cases hc : peakLess y e = true
        · -- the accumulator becomes y; e is the discarded entry
          have hpe : peakPick e y = y := by simp [peakPick, hc]
          cases hxr : peakLess e (ys.foldl peakPick (peakPick e y)) with
          | false => rfl
          | true =>
              have hyr : peakLess y (ys.foldl peakPick (peakPick e y)) = true :=
                peakLess_trans hy he hr hc hxr
              nth_rewrite 1 [hpe] at hself
              rw [hyr] at hself
              exact absurd hself (by simp)
        · have hpe : peakPick e y = e := by simp [peakPick, hc]
          nth_rewrite 1 [hpe] at hself
          exact hself
      · rcases List.mem_cons.mp hx1 with hx2 | hx2
        · rw [hx2]
          by_cases hc : peakLess y e = true
          · have hpe : peakPick e y = y := by simp [peakPick, hc]
            nth_rewrite 1 [hpe] at hself
            exact hself
          · -- the accumulator stays e; y is the discarded entry
            have hpe : peakPick e y = e := by simp [peakPick, hc]
            nth_rewrite 1 [hpe] at hself
            cases hxr : peakLess y (ys.foldl peakPick (peakPick e y)) with
            | false => rfl
            | true =>
                by_cases hey : peakLess e y = true
                · have : peakLess e (ys.foldl peakPick (peakPick e y)) = true :=
                    peakLess_trans he hy hr hey hxr
                  rw [this] at hself
                  exact absurd hself (by simp)
                · have hanti := peakLess_antisymm hy he (by simpa using hc) (by simpa using hey)
                  have hcg := peakLess_congr (ys.foldl peakPick (peakPick e y))
                    hanti.2 hanti.1
                  rw [hcg, hself] at hxr
                  exact absurd hxr (by simp)
        · exact ihm x (by simp [hx2])

theorem peakMin_unique {m : List (String × HourlyData)}
    (hn : (m.map Prod.fst).Nodup) (hnn : ∀ z ∈ m, z.2.maxPower.isNaN = false)
    {x y : String × HourlyData} (hx : x ∈ m) (hy : y ∈ m)
    (hminx : ∀ z ∈ m, peakLess z x = false) (hminy : ∀ z ∈ m, peakLess z y = false) :
    x = y := by
  have h1 := peakLess_antisymm (hnn x hx) (hnn y hy) (hminy x hx) (hminx y hy)
  exact List.inj_on_of_nodup_map hn hx hy h1.2

theorem derivePeakHour_perm {m1 m2 : List (String × HourlyData)} (h : m1.Perm m2)
    (hn : (m1.map Prod.fst).Nodup) (hnn : ∀ z ∈ m1, z.2.maxPower.isNaN = false) :
    derivePeakHour m1 = derivePeakHour m2 := by
  cases hm1 : m1 with
  | nil =>
      subst hm1
      have : m2 = [] := h.symm.eq_nil
      rw [this]
  | cons e1 r1 =>
      cases hm2 : m2 with
      | nil =>
          subst hm2
          subst hm1
          exact absurd h.eq_nil (by simp)
      | cons e2 r2 =>
          subst hm1
          subst hm2
          have hmem1 := foldPick_mem r1 e1
          have hmem2 := foldPick_mem r2 e2
          have hmin1 := foldPick_minimal r1 e1 hnn
          have hnn2 : ∀ z ∈ e2 :: r2, z.2.maxPower.isNaN = false :=
            fun z hz => hnn z (h.mem_iff.mpr hz)
          have hmin2 := foldPick_minimal r2 e2 hnn2
          have hmem2' : r2.foldl peakPick e2 ∈ e1 :: r1 := h.mem_iff.mpr hmem2
          have hmin2' : ∀ z ∈ e1 :: r1, peakLess z (r2.foldl peakPick e2) = false :=
            fun z hz => hmin2 z (h.mem_iff.mp hz)
          have := peakMin_unique hn hnn hmem1 hmem2' hmin1 hmin2'
          show (r1.foldl peakPick e1).1 = (r2.foldl peakPick e2).1
          rw [this]

theorem alGet_mem_or_zero (m : List (String × HourlyData)) (k : String) :
    (k, alGet m k) ∈ m ∨ alGet m k = HourlyData.zero := by
  induction m with
  | nil => exact Or.inr rfl
  | cons e rest ih =>
      by_cases hk : e.1 = k
      · left
        subst hk
        simp [alGet]
  -- note: when the head key matches, the read returns the head entry
      · rcases ih with h1 | h1
        · left
          simp only [alGet, hk, if_false]
          exact List.mem_cons_of_mem _ h1
        · right
          simpa [alGet, hk] using h1

theorem alPut_keys (m : List (String × HourlyData)) (k : String) (v : HourlyData) :
    (alPut m k v).map Prod.fst =
      if k ∈ m.map Prod.fst then m.map Prod.fst else m.map Prod.fst ++ [k] := by
  induction m with
  | nil => simp [alPut]
  | cons e rest ih =>
      by_cases hk : e.1 = k
      · subst hk
        simp [alPut]
      · have hne : ¬ k = e.1 := fun hh => hk hh.symm
        simp only [alPut, hk, if_false, List.map_cons, List.mem_cons, hne, false_or, ih]
        by_cases hmem : k ∈ rest.map Prod.fst
        · simp [hmem]
        · simp [hmem]

theorem alPut_nodup {m : List (String × HourlyData)} (k : String) (v : HourlyData)
    (hn : (m.map Prod.fst).Nodup) : ((alPut m k v).map Prod.fst).Nodup := by
  rw [alPut_keys]
  by_cases hmem : k ∈ m.map Prod.fst
  · simpa [hmem] using hn
  · simp only [hmem, if_false]
    simp [List.nodup_append, hn, hmem]

theorem alPut_countSum (m : List (String × HourlyData)) (k : String) (v : HourlyData) :
    countSum (alPut m k v) + (alGet m k).count = countSum m + v.count := by
  induction m with
  | nil => simp [alPut, alGet, countSum, HourlyData.zero]
  | cons e rest ih =>
      by_cases hk : e.1 = k
      · subst hk
        simp only [countSum] at ih ⊢
        simp [alPut, alGet]
        omega
      · simp only [countSum] at ih ⊢
        simp [alPut, alGet, hk]
        omega

theorem alPut_countSum_inc (m : List (String × HourlyData)) (k : String) (v : HourlyData)
    (hv : v.count = (alGet m k).count + 1) : countSum (alPut m k v) = countSum m + 1 := by
  have := alPut_countSum m k v
  omega

theorem alPut_mem {m : List (String × HourlyData)} {k : String} {v : HourlyData}
    {x : String × HourlyData} (hx : x ∈ alPut m k v) : x = (k, v) ∨ x ∈ m := by
  induction m with
  | nil => simpa [alPut] using hx
  | cons e rest ih =>
      by_cases hk : e.1 = k
      · rw [alPut, if_pos hk] at hx
        rcases List.mem_cons.mp hx with h1 | h1
        · exact Or.inl h1
        · exact Or.inr (List.mem_cons_of_mem _ h1)
      · rw [alPut, if_neg hk] at hx
        rcases List.mem_cons.mp hx with h1 | h1
        · exact Or.inr (by simp [h1])
        · rcases ih h1 with h2 | h2
          · exact Or.inl h2
          · exact Or.inr (List.mem_cons_of_mem _ h2)

theorem hourlyStep_inv {m : List (String × HourlyData)} (r : Reading)
    (hn : (m.map Prod.fst).Nodup)
    (hent : ∀ e ∈ m, 1 ≤ e.2.count ∧ e.2.maxPower.isNaN = false) :
    ((hourlyStep m r).map Prod.fst).Nodup ∧
      (∀ e ∈ hourlyStep m r, 1 ≤ e.2.count ∧ e.2.maxPower.isNaN = false) ∧
      countSum (hourlyStep m r) = countSum m + 1 := by
  have hold : 0 ≤ (alGet m (hourString r.timestamp)).count ∧
      (alGet m (hourString r.timestamp)).maxPower.isNaN = false := by
    rcases alGet_mem_or_zero m (hourString r.timestamp) with h1 | h1
    · exact ⟨Nat.zero_le _, (hent _ h1).2⟩
    · rw [h1]
      exact ⟨Nat.zero_le _, rfl⟩
  refine ⟨alPut_nodup _ _ hn, ?_, ?_⟩
  · intro e he
    rcases alPut_mem he with h1 | h1
    · rw [h1]
      refine ⟨by simp, ?_⟩
      by_cases hgt : r.powerKW.goGt (alGet m (hourString r.timestamp)).maxPower = true
      · simp only [hgt, if_true]
        exact GFloat.not_nan_of_goLt_right hgt
      · simpa [hgt] using hold.2
    · exact hent e h1
  · simp only [hourlyStep]
    exact alPut_countSum_inc _ _ _ rfl

theorem hourlyFold_inv (readings : List Reading) :
    ∀ (m : List (String × HourlyData)), (m.map Prod.fst).Nodup →
    (∀ e ∈ m, 1 ≤ e.2.count ∧ e.2.maxPower.isNaN = false) →
    ((readings.foldl hourlyStep m).map Prod.fst).Nodup ∧
      (∀ e ∈ readings.foldl hourlyStep m, 1 ≤ e.2.count ∧ e.2.maxPower.isNaN = false) ∧
      countSum (readings.foldl hourlyStep m) = countSum m + readings.length := by
  induction readings with
  | nil => intro m hn hent; exact ⟨hn, hent, by simp⟩
  | cons r rs ih =>
      intro m hn hent
      have hstep := hourlyStep_inv r hn hent
      have := ih (hourlyStep m r) hstep.1 hstep.2.1
      simp only [List.foldl_cons]
      refine ⟨this.1, this.2.1, ?_⟩
      rw [this.2.2, hstep.2.2]
      simp [Nat.add_assoc, Nat.add_comm 1 rs.length]

theorem calculateHourlyData_inv (readings : List Reading) :
    ((calculateHourlyData readings).map Prod.fst).Nodup ∧
      (∀ e ∈ calculateHourlyData readings,
        1 ≤ e.2.count ∧ e.2.maxPower.isNaN = false ∧
          e.2.avgPower = e.2.totalPower.div (GFloat.fin (e.2.count : ℚ))) ∧
      countSum (calculateHourlyData readings) = readings.length := by
  have hbase := hourlyFold_inv readings [] (by simp) (by simp)
  unfold calculateHourlyData
  have hkeys : ((readings.foldl hourlyStep []).map
      (fun e => if 0 < e.2.count
        then (e.1, { e.2 with avgPower := e.2.totalPower.div (GFloat.fin (e.2.count : ℚ)) })
        else e)).map Prod.fst = (readings.foldl hourlyStep []).map Prod.fst := by
    rw [List.map_map]
    refine List.map_congr_left ?_
    intro e _
    by_cases hc : 0 < e.2.count
    · simp [hc]
    · simp [hc]
  refine ⟨by rw [hkeys]; exact hbase.1, ?_, ?_⟩
  · intro e he
    rcases List.mem_map.mp he with ⟨a, ha, hae⟩
    have hinv := hbase.2.1 a ha
    have hc : 0 < a.2.count := hinv.1
    rw [if_pos hc] at hae
    rw [← hae]
    exact ⟨hinv.1, hinv.2, rfl⟩
  · have hcs : countSum ((readings.foldl hourlyStep []).map
        (fun e => if 0 < e.2.count
          then (e.1, { e.2 with avgPower := e.2.totalPower.div (GFloat.fin (e.2.count : ℚ)) })
          else e)) = countSum (readings.foldl hourlyStep []) := by
      unfold countSum
      rw [List.map_map]
      refine congrArg List.sum (List.map_congr_left ?_)
      intro e _
      by_cases hc : 0 < e.2.count
      · simp [hc]
      · simp [hc]
    rw [hcs]
    simpa [countSum] using hbase.2.2

theorem calculateHourlyData_scenario :
    calculateHourlyData scenarioReadings =
      [("00", ⟨2, GFloat.fin 30, GFloat.fin 15, GFloat.fin 20⟩),
       ("01", ⟨1, GFloat.fin 5, GFloat.fin 5, GFloat.fin 5⟩)] := by
  have h0 : hourString 0 = "00" := by decide
  have h100 : hourString 100 = "00" := by decide
  have h3600 : hourString 3600 = "01" := by decide
  have hne1 : ("00" : String) ≠ "01" := by decide
  have hne2 : ("01" : String) ≠ "00" := by decide
  norm_num [scenarioReadings, calculateHourlyData, hourlyStep, h0, h100, h3600, alGet, alPut,
    HourlyData.zero, hne1, hne2, GFloat.add_fin, GFloat.goGt_fin, GFloat.div_fin]

/-- C1: the claim states the severity ladder with no `mean > 0` guard on the
`high` rung; the source guards both the `critical` and the `high` rung with
`mean > 0`.  With empty history (`mean = 0`) and `current.PowerKW = 5` the
claim's ladder yields `"high"` while `detectAnomaly` returns `"low"`. -/
theorem claim_C1_counterexample :
    (detectAnomaly (fun _ => []) (fun _ => [])
        ⟨"f1", "m1", 1, GFloat.fin 230, GFloat.fin 1, GFloat.fin 5⟩ [] 24 (GFloat.fin 2)).severity ≠
      claimC1Ladder (calculateMean []) (GFloat.fin 5) := by
  norm_num [detectAnomaly, claimC1Ladder, calculateMean, GFloat.goGt_fin, GFloat.goGe_fin,
    GFloat.mul_fin, GFloat.goLt_fin]
  decide

/-- C1 (amended): for every evaluation, the returned severity follows the
source's guarded ladder: `critical` when `mean > 0` and
`current.PowerKW >= mean*2.0`; otherwise `high` when `mean > 0` and
`current.PowerKW >= mean*1.5`; otherwise `low` — where `mean` is
`calculateMean historical`, the arithmetic mean of the historical power
values (`0` when `historical` is empty).  This holds regardless of the spike
and outlier sub-detectors and of the empty-history override (which can only
re-assign `low` in a situation where the ladder already yields `low`). -/
theorem claim_C1_severity_ladder :
    ∀ (spikes outliers : List AnomalyReading → List AnomalyReading) (current : Reading)
      (historical : List Reading) (window : Int) (sigma : GFloat),
      (detectAnomaly spikes outliers current historical window sigma).severity =
        (if (calculateMean historical).goGt (GFloat.fin 0) &&
            current.powerKW.goGe ((calculateMean historical).mul (GFloat.fin 2)) then "critical"
         else if (calculateMean historical).goGt (GFloat.fin 0) &&
            current.powerKW.goGe ((calculateMean historical).mul (GFloat.fin (3/2))) then "high"
         else "low") := by
  intro sp ol cur hist w s
  simp only [detectAnomaly]
  by_cases hh : (hist.isEmpty && cur.powerKW.goGt (GFloat.fin 0)) = true
  · have hemp : hist = [] := by
      have := (Bool.and_eq_true _ _).mp hh
      exact List.isEmpty_iff.mp this.1
    subst hemp
    have hm : calculateMean ([] : List Reading) = GFloat.fin 0 := rfl
    rw [if_pos hh, hm]
    norm_num [GFloat.goGt_fin]
  · rw [if_neg hh]

/-- C2: with an empty historical window and `current.PowerKW > 0`,
`detectAnomaly` returns `IsAnomaly = true` and `Severity = "low"`, for every
choice of spike and outlier sub-detectors. -/
theorem claim_C2_empty_history :
    ∀ (spikes outliers : List AnomalyReading → List AnomalyReading) (current : Reading)
      (window : Int) (sigma : GFloat),
      current.powerKW.goGt (GFloat.fin 0) = true →
      (detectAnomaly spikes outliers current [] window sigma).isAnomaly = true ∧
        (detectAnomaly spikes outliers current [] window sigma).severity = "low" := by
  intro sp ol cur w s h
  constructor
  · simp [detectAnomaly, h]
  · simp [detectAnomaly, h]

/-- Witness for C2 at a concrete input: empty history, current power 5,
sub-detectors that report nothing. -/
theorem claim_C2_empty_history_witness :
    (detectAnomaly (fun _ => []) (fun _ => [])
        ⟨"f1", "m1", 1, GFloat.fin 230, GFloat.fin 1, GFloat.fin 5⟩ [] 24 (GFloat.fin 2)).isAnomaly
        = true ∧
      (detectAnomaly (fun _ => []) (fun _ => [])
        ⟨"f1", "m1", 1, GFloat.fin 230, GFloat.fin 1, GFloat.fin 5⟩ [] 24 (GFloat.fin 2)).severity
        = "low" :=
  claim_C2_empty_history (fun _ => []) (fun _ => [])
    ⟨"f1", "m1", 1, GFloat.fin 230, GFloat.fin 1, GFloat.fin 5⟩ 24 (GFloat.fin 2)
    (by norm_num [GFloat.goGt_fin])

/-- C6: running the daily aggregation twice on the identical readings and
date yields `DailyAnalytics` records equal in every field except
`CreatedAt` — the creation timestamp is the only wall-clock-dependent
field. -/
theorem claim_C6_determinism :
    ∀ (readings : List Reading) (date : String) (t1 t2 : Int),
      calculateDailyAnalytics readings date t1 =
        { calculateDailyAnalytics readings date t2 with createdAt := t1 } := by
  intro readings date t1 t2
  rfl

/-- C10: `calculateDailyAnalytics` is total on the empty readings list; it
returns reading count 0, average/peak/min power 0, an empty hourly map and
an empty peak-hour string (the `safeAverage`, `findMaxMin` and
`derivePeakHour` guards fire, so no division by zero occurs). -/
theorem claim_C10_empty_total :
    ∀ (date : String) (now : Int),
      (calculateDailyAnalytics [] date now).readingCount = 0 ∧
        (calculateDailyAnalytics [] date now).averagePower = GFloat.fin 0 ∧
        (calculateDailyAnalytics [] date now).peakPower = GFloat.fin 0 ∧
        (calculateDailyAnalytics [] date now).minPower = GFloat.fin 0 ∧
        (calculateDailyAnalytics [] date now).hourlyData = [] ∧
        (calculateDailyAnalytics [] date now).peakHour = "" := by
  intro date now
  norm_num [calculateDailyAnalytics, safeAverage, findMaxMin, calculateHourlyData,
    derivePeakHour, round2, roundGo, roundHalfAwayQ, GFloat.mul_fin, GFloat.div_fin]

/-- C8: the daily-report `Handler` answers an empty day with a successful
"No data to process" response (status 200, nil error) and runs neither the
aggregation nor the storage / report steps; a failed query is answered with
a 500 response and a non-nil error; and `GetDailySummary` likewise returns a
zero-valued summary with a nil error for an empty day. -/
theorem claim_C8_no_data :
    (∀ (eventDate eventFacility yesterday : String) (storeResult : Except String Unit)
        (reportResult : Except String String) (now : Int),
      handlerRun eventDate eventFacility yesterday (Except.ok []) storeResult reportResult now =
        ⟨⟨200, some "No data to process",
            some (if eventDate = "" then yesterday else eventDate), none, none, none⟩,
          none, [HandlerStep.queryReadings]⟩) ∧
    (∀ (eventDate eventFacility yesterday : String) (storeResult : Except String Unit)
        (reportResult : Except String String) (now : Int) (e : String),
      (handlerRun eventDate eventFacility yesterday (Except.error e) storeResult reportResult
          now).err = some e ∧
        (handlerRun eventDate eventFacility yesterday (Except.error e) storeResult reportResult
          now).response.statusCode = 500) ∧
    (∀ (date : Int),
      getDailySummary (Except.ok []) date =
        Except.ok ⟨date, GFloat.fin 0, GFloat.fin 0, GFloat.fin 0, 0⟩) := by
  refine ⟨fun _ _ _ _ _ _ => rfl, fun _ _ _ _ _ _ _ => ⟨rfl, rfl⟩, fun _ => rfl⟩

/-- C9: the claim states that `detectAnomaly` with `window <= 0` (or
`sigma <= 0`) returns a typed invalid-input error and never a computed
result.  The function has no error return at all: with `window = 0` it
substitutes the default 24 and returns a fully computed `AnomalyResult`
(here with severity `critical`, mean 10, deviation 200%). -/
theorem claim_C9_counterexample :
    (detectAnomaly (fun _ => []) (fun _ => [])
        ⟨"f1", "m1", 3, GFloat.fin 230, GFloat.fin 1, GFloat.fin 30⟩
        [⟨"f1", "m1", 1, GFloat.fin 230, GFloat.fin 1, GFloat.fin 10⟩,
         ⟨"f1", "m1", 2, GFloat.fin 230, GFloat.fin 1, GFloat.fin 10⟩] 0 (GFloat.fin 2)).severity
        = "critical" ∧
      (detectAnomaly (fun _ => []) (fun _ => [])
        ⟨"f1", "m1", 3, GFloat.fin 230, GFloat.fin 1, GFloat.fin 30⟩
        [⟨"f1", "m1", 1, GFloat.fin 230, GFloat.fin 1, GFloat.fin 10⟩,
         ⟨"f1", "m1", 2, GFloat.fin 230, GFloat.fin 1, GFloat.fin 10⟩] 0 (GFloat.fin 2)).mean
        = GFloat.fin 10 ∧
      (detectAnomaly (fun _ => []) (fun _ => [])
        ⟨"f1", "m1", 3, GFloat.fin 230, GFloat.fin 1, GFloat.fin 30⟩
        [⟨"f1", "m1", 1, GFloat.fin 230, GFloat.fin 1, GFloat.fin 10⟩,
         ⟨"f1", "m1", 2, GFloat.fin 230, GFloat.fin 1, GFloat.fin 10⟩] 0
          (GFloat.fin 2)).deviationPercent = GFloat.fin 200 := by
  norm_num [detectAnomaly, calculateMean, calculateStdDev, sqrtGo_zero, GFloat.add_fin,
    GFloat.sub_fin, GFloat.mul_fin, GFloat.div_fin, GFloat.goGt_fin, GFloat.goGe_fin,
    GFloat.goNe_fin, GFloat.goLe_fin, GFloat.isNaN_fin, GFloat.isInf_fin]

/-- C9 (amended): `detectAnomaly` with `window <= 0` substitutes the default
window 24 and proceeds (and with `sigma <= 0` substitutes the default 2.0);
it returns the same computed `AnomalyResult` as the defaulted call and has
no error return. -/
theorem claim_C9_invalid_window_defaults :
    ∀ (spikes outliers : List AnomalyReading → List AnomalyReading) (current : Reading)
      (historical : List Reading) (window : Int) (sigma : GFloat),
      (window ≤ 0 →
        detectAnomaly spikes outliers current historical window sigma =
          detectAnomaly spikes outliers current historical 24 sigma) ∧
      (sigma.goLe (GFloat.fin 0) = true →
        detectAnomaly spikes outliers current historical window sigma =
          detectAnomaly spikes outliers current historical window (GFloat.fin 2)) := by
  intro sp ol cur hist w s
  constructor
  · intro h
    have h24 : ¬ ((24 : Int) ≤ 0) := by norm_num
    simp only [detectAnomaly, if_pos h, if_neg h24]
  · intro h
    have h20 : (GFloat.fin 2).goLe (GFloat.fin 0) = false := by norm_num [GFloat.goLe_fin]
    simp only [detectAnomaly, h, h20]
    simp

/-- Witness for C9 (amended) at concrete inputs: `window = 0` and separately
`sigma = 0`. -/
theorem claim_C9_invalid_window_defaults_witness :
    (detectAnomaly (fun _ => []) (fun _ => [])
        ⟨"f1", "m1", 1, GFloat.fin 230, GFloat.fin 1, GFloat.fin 5⟩ [] 0 (GFloat.fin 2) =
      detectAnomaly (fun _ => []) (fun _ => [])
        ⟨"f1", "m1", 1, GFloat.fin 230, GFloat.fin 1, GFloat.fin 5⟩ [] 24 (GFloat.fin 2)) ∧
    (detectAnomaly (fun _ => []) (fun _ => [])
        ⟨"f1", "m1", 1, GFloat.fin 230, GFloat.fin 1, GFloat.fin 5⟩ [] 24 (GFloat.fin 0) =
      detectAnomaly (fun _ => []) (fun _ => [])
        ⟨"f1", "m1", 1, GFloat.fin 230, GFloat.fin 1, GFloat.fin 5⟩ [] 24 (GFloat.fin 2)) :=
  ⟨(claim_C9_invalid_window_defaults (fun _ => []) (fun _ => [])
      ⟨"f1", "m1", 1, GFloat.fin 230, GFloat.fin 1, GFloat.fin 5⟩ [] 0 (GFloat.fin 2)).1
      (by norm_num),
   (claim_C9_invalid_window_defaults (fun _ => []) (fun _ => [])
      ⟨"f1", "m1", 1, GFloat.fin 230, GFloat.fin 1, GFloat.fin 5⟩ [] 24 (GFloat.fin 0)).2
      (by norm_num [GFloat.goLe_fin])⟩

/-- C3: every bucket of the hourly map has count at least 1 and
`AvgPower = TotalPower / count` (no zero-count entries exist),
`DailyAnalytics.ReadingCount` equals the sum of the bucket counts, and the
three-reading scenario produces exactly the buckets the claim lists. -/
theorem claim_C3_hourly_invariants :
    (∀ (readings : List Reading) (date : String) (now : Int),
      (∀ e ∈ (calculateDailyAnalytics readings date now).hourlyData,
          1 ≤ e.2.count ∧ e.2.avgPower = e.2.totalPower.div (GFloat.fin (e.2.count : ℚ))) ∧
        (calculateDailyAnalytics readings date now).readingCount =
          countSum (calculateDailyAnalytics readings date now).hourlyData) ∧
      calculateHourlyData scenarioReadings =
        [("00", ⟨2, GFloat.fin 30, GFloat.fin 15, GFloat.fin 20⟩),
         ("01", ⟨1, GFloat.fin 5, GFloat.fin 5, GFloat.fin 5⟩)] := by
  refine ⟨fun readings date now => ⟨?_, ?_⟩, calculateHourlyData_scenario⟩
  · intro e he
    have h := (calculateHourlyData_inv readings).2.1 e he
    exact ⟨h.1, h.2.2⟩
  · exact ((calculateHourlyData_inv readings).2.2).symm

/-- Witness for C3 at the scenario input: the hour-00 bucket of the
scenario's daily analytics satisfies the count and average invariants. -/
theorem claim_C3_hourly_invariants_witness :
    1 ≤ (("00", (⟨2, GFloat.fin 30, GFloat.fin 15, GFloat.fin 20⟩ : HourlyData)) :
        String × HourlyData).2.count ∧
      (("00", (⟨2, GFloat.fin 30, GFloat.fin 15, GFloat.fin 20⟩ : HourlyData)) :
        String × HourlyData).2.avgPower =
        (("00", (⟨2, GFloat.fin 30, GFloat.fin 15, GFloat.fin 20⟩ : HourlyData)) :
          String × HourlyData).2.totalPower.div
          (GFloat.fin ((("00", (⟨2, GFloat.fin 30, GFloat.fin 15, GFloat.fin 20⟩ : HourlyData)) :
            String × HourlyData).2.count : ℚ)) :=
  (claim_C3_hourly_invariants.1 scenarioReadings "2024-01-01" 0).1
    ("00", ⟨2, GFloat.fin 30, GFloat.fin 15, GFloat.fin 20⟩)
    (by rw [show (calculateDailyAnalytics scenarioReadings "2024-01-01" 0).hourlyData =
          calculateHourlyData scenarioReadings from rfl, calculateHourlyData_scenario]
        simp)

/-- C4: for every non-empty hourly map (distinct hour keys, non-NaN max
powers — both hold for every map `calculateHourlyData` builds, which the
second conjunct proves), the selected peak hour is the hour of a bucket
whose `MaxPower` is greatest, ties are broken by the lexicographically
smallest hour string, and the selection is invariant under permutation of
the entries, i.e. determined by the map contents alone. -/
theorem claim_C4_peak_hour :
    (∀ (m : List (String × HourlyData)), m ≠ [] → (m.map Prod.fst).Nodup →
      (∀ e ∈ m, e.2.maxPower.isNaN = false) →
      ∃ e, e ∈ m ∧ derivePeakHour m = e.1 ∧
        (∀ e2 ∈ m, e2.2.maxPower.goLe e.2.maxPower = true) ∧
        (∀ e2 ∈ m, e2.2.maxPower = e.2.maxPower → e.1 ≤ e2.1) ∧
        (∀ m2, m.Perm m2 → derivePeakHour m2 = derivePeakHour m)) ∧
    (∀ readings : List Reading,
      ((calculateHourlyData readings).map Prod.fst).Nodup ∧
        ∀ e ∈ calculateHourlyData readings, e.2.maxPower.isNaN = false) := by
  constructor
  · intro m hne hn hnn
    obtain ⟨e0, rest, rfl⟩ := List.exists_cons_of_ne_nil hne
    have hrmem := foldPick_mem rest e0
    have hrnn : (rest.foldl peakPick e0).2.maxPower.isNaN = false := hnn _ hrmem
    have hmin := foldPick_minimal rest e0 hnn
    refine ⟨rest.foldl peakPick e0, hrmem, rfl, ?_, ?_, ?_⟩
    · intro e2 he2
      have h2nn := hnn e2 he2
      have hc : ¬ peakLess e2 (rest.foldl peakPick e0) = true := by simp [hmin e2 he2]
      rw [peakLess_eq_true_iff h2nn hrnn] at hc
      push_neg at hc
      rcases GFloat.goLt_trichotomy h2nn hrnn with h | h | h
      · exact GFloat.goLe_of_goLt h
      · rw [h]
        exact GFloat.goLe_refl hrnn
      · exact absurd h hc.1
    · intro e2 he2 heq
      have h2nn := hnn e2 he2
      have hc : ¬ peakLess e2 (rest.foldl peakPick e0) = true := by simp [hmin e2 he2]
      rw [peakLess_eq_true_iff h2nn hrnn] at hc
      push_neg at hc
      exact le_of_not_lt (hc.2 heq)
    · intro m2 hperm
      exact (derivePeakHour_perm hperm hn hnn).symm
  · intro readings
    exact ⟨(calculateHourlyData_inv readings).1,
      fun e he => ((calculateHourlyData_inv readings).2.1 e he).2.1⟩

/-- Witness for C4 at the scenario's hourly map: hour 00 (max power 20)
beats hour 01 (max power 5). -/
theorem claim_C4_peak_hour_witness :
    ∃ e, e ∈ ([("00", ⟨2, GFloat.fin 30, GFloat.fin 15, GFloat.fin 20⟩),
        ("01", ⟨1, GFloat.fin 5, GFloat.fin 5, GFloat.fin 5⟩)] : List (String × HourlyData)) ∧
      derivePeakHour [("00", ⟨2, GFloat.fin 30, GFloat.fin 15, GFloat.fin 20⟩),
        ("01", ⟨1, GFloat.fin 5, GFloat.fin 5, GFloat.fin 5⟩)] = e.1 ∧
      (∀ e2 ∈ ([("00", ⟨2, GFloat.fin 30, GFloat.fin 15, GFloat.fin 20⟩),
          ("01", ⟨1, GFloat.fin 5, GFloat.fin 5, GFloat.fin 5⟩)] : List (String × HourlyData)),
        e2.2.maxPower.goLe e.2.maxPower = true) ∧
      (∀ e2 ∈ ([("00", ⟨2, GFloat.fin 30, GFloat.fin 15, GFloat.fin 20⟩),
          ("01", ⟨1, GFloat.fin 5, GFloat.fin 5, GFloat.fin 5⟩)] : List (String × HourlyData)),
        e2.2.maxPower = e.2.maxPower → e.1 ≤ e2.1) ∧
      (∀ m2, ([("00", ⟨2, GFloat.fin 30, GFloat.fin 15, GFloat.fin 20⟩),
          ("01", ⟨1, GFloat.fin 5, GFloat.fin 5, GFloat.fin 5⟩)] :
            List (String × HourlyData)).Perm m2 →
        derivePeakHour m2 =
          derivePeakHour [("00", ⟨2, GFloat.fin 30, GFloat.fin 15, GFloat.fin 20⟩),
            ("01", ⟨1, GFloat.fin 5, GFloat.fin 5, GFloat.fin 5⟩)]) :=
  claim_C4_peak_hour.1
    [("00", ⟨2, GFloat.fin 30, GFloat.fin 15, GFloat.fin 20⟩),
     ("01", ⟨1, GFloat.fin 5, GFloat.fin 5, GFloat.fin 5⟩)]
    (by decide) (by decide) (by decide)

theorem mmStep_fold (vs : List ℚ) :
    ∀ a b : ℚ,
      ((vs.map (fun v => Point.mk (GFloat.fin v) 0)).foldl mmStep
          (GFloat.fin a, GFloat.fin b)) =
        (GFloat.fin (vs.foldl max a), GFloat.fin (vs.foldl min b)) := by
  induction vs with
  | nil => intro a b; rfl
  | cons v vs ih =>
      intro a b
      simp only [List.map_cons, List.foldl_cons]
      have hstep : mmStep (GFloat.fin a, GFloat.fin b) (Point.mk (GFloat.fin v) 0) =
          (GFloat.fin (max a v), GFloat.fin (min b v)) := by
        unfold mmStep
        by_cases h1 : a < v
        · by_cases h2 : v < b
          · simp [GFloat.goGt_fin, GFloat.goLt_fin, h1, h2, max_eq_right (le_of_lt h1),
              min_eq_right (le_of_lt h2)]
          · simp [GFloat.goGt_fin, GFloat.goLt_fin, h1, h2, max_eq_right (le_of_lt h1),
              min_eq_left (not_lt.mp h2)]
        · by_cases h2 : v < b
          · simp [GFloat.goGt_fin, GFloat.goLt_fin, h1, h2, max_eq_left (not_lt.mp h1),
              min_eq_right (le_of_lt h2)]
          · simp [GFloat.goGt_fin, GFloat.goLt_fin, h1, h2, max_eq_left (not_lt.mp h1),
              min_eq_left (not_lt.mp h2)]
      rw [hstep]
      exact ih (max a v) (min b v)

/-- C5: the claim says the daily aggregation's extremum scan is seeded from
the first element.  That is true of `findMaxMin` in
`lambda-functions/analytics-processing/main.go` (last two conjuncts: on any
non-empty finite-valued list it returns the true maximum and minimum, also
when every value is negative), but the legacy variant in
`src/unnamed/part_001` seeds `findMax` from `0` and `findMin` from
`math.MaxFloat64`: on the all-negative list `[-5]` its `findMax` returns
`0`, not the true maximum `-5`. -/
theorem claim_C5_extremum_seeding :
    findMaxLegacy [⟨GFloat.fin (-5), 0⟩] = GFloat.fin 0 ∧
      findMinLegacy [⟨GFloat.fin (-5), 0⟩] = GFloat.fin (-5) ∧
      findMaxMin [⟨GFloat.fin (-5), 0⟩] = (GFloat.fin (-5), GFloat.fin (-5)) ∧
      (∀ (q : ℚ) (qs : List ℚ),
        findMaxMin ((q :: qs).map (fun v => Point.mk (GFloat.fin v) 0)) =
          (GFloat.fin (qs.foldl max q), GFloat.fin (qs.foldl min q))) := by
  refine ⟨?_, ?_, rfl, ?_⟩
  · norm_num [findMaxLegacy, GFloat.goGt_fin]
  · norm_num [findMinLegacy, maxFloat64Q, GFloat.goLt_fin]
  · intro q qs
    simp only [List.map_cons, findMaxMin]
    exact mmStep_fold qs q q

theorem GFloat.isFinite_iff {x : GFloat} : x.isFinite = true ↔ ∃ q, x = GFloat.fin q := by
  cases x <;> simp [GFloat.isFinite]

theorem foldl_add_finite (xs : List GFloat) (h : ∀ x ∈ xs, x.isFinite = true) :
    ∀ a : ℚ, ∃ s : ℚ, xs.foldl GFloat.add (GFloat.fin a) = GFloat.fin s := by
  induction xs with
  | nil => intro a; exact ⟨a, rfl⟩
  | cons x xs ih =>
      intro a
      obtain ⟨qx, hx⟩ := GFloat.isFinite_iff.mp (h x (by simp))
      have ih' := ih (fun y hy => h y (by simp [hy])) (a + qx)
      simpa [hx, GFloat.add_fin] using ih'

theorem averageFloat_finite (xs : List GFloat) (h : ∀ x ∈ xs, x.isFinite = true) :
    (averageFloat xs).isFinite = true := by
  unfold averageFloat
  by_cases hl : xs.length = 0
  · rw [if_pos hl]
    rfl
  · obtain ⟨s, hs⟩ := foldl_add_finite xs h 0
    rw [if_neg hl, hs, GFloat.div_fin _ _ (Nat.cast_ne_zero.mpr hl)]
    rfl

theorem safeAverage_finite (points : List Point) (h : ∀ p ∈ points, p.value.isFinite = true) :
    (safeAverage points).isFinite = true := by
  unfold safeAverage aggregatorAverage aggregatorSum
  by_cases hl : points.length = 0
  · rw [if_pos hl]
    rfl
  · obtain ⟨s, hs⟩ := foldl_add_finite (points.map Point.value)
      (by
        intro x hx
        rcases List.mem_map.mp hx with ⟨p, hp, rfl⟩
        exact h p hp) 0
    rw [List.foldl_map] at hs
    rw [if_neg hl, hs, GFloat.div_fin _ _ (Nat.cast_ne_zero.mpr hl)]
    rfl

theorem max0_fin (m : ℚ) : max0 (GFloat.fin m) = GFloat.fin (if m < 0 then 0 else m) := by
  by_cases h : m < 0 <;>
    simp [max0, GFloat.goLt_fin, h, GFloat.isNaN, GFloat.isInf]

theorem round3_fin (q : ℚ) :
    round3 (GFloat.fin q) = GFloat.fin ((roundHalfAwayQ (q * 1000) : ℚ) / 1000) := by
  rw [round3, GFloat.mul_fin, roundGo_fin, GFloat.div_fin _ _ (by norm_num)]

theorem powerFactor_finite_of (app real : GFloat) (happ : ∃ c, app = GFloat.fin c)
    (hreal : ∃ p, real = GFloat.fin p) :
    (round3 (if app.goGt (GFloat.fin 0) then calculateEfficiency app real
      else GFloat.fin 0)).isFinite = true := by
  obtain ⟨c, rfl⟩ := happ
  obtain ⟨p, rfl⟩ := hreal
  by_cases h : (0 : ℚ) < c
  · simp only [GFloat.goGt_fin, calculateEfficiency, h, decide_eq_true_eq, if_pos]
    rw [GFloat.div_fin _ _ (ne_of_gt h), round3_fin]
    rfl
  · have hb : decide ((0:ℚ) < c) = false := by simp [h]
    simp only [GFloat.goGt_fin, hb, Bool.false_eq_true, if_false]
    rw [round3_fin]
    rfl

/-- C7: the claim quantifies over every readings list, but a reading whose
power is NaN makes `AveragePower` NaN while the apparent power stays
positive, so `PowerFactor` is NaN (see the counterexample).  Amended with
the finiteness precondition, the claim holds: with all voltage, current and
power values finite, `PowerFactor` is never NaN or Inf; moreover the
apparent power is clamped to `0` whenever negative/NaN/Inf (`max0` never
returns NaN or Inf), `PowerFactor` is `0` whenever the clamped apparent
power is `0`, and `CalculateEfficiency` divides only when the apparent
power is strictly positive, returning `0` otherwise. -/
theorem claim_C7_power_factor :
    (∀ (readings : List Reading) (date : String) (now : Int),
      (∀ r ∈ readings, r.voltage.isFinite = true ∧ r.current.isFinite = true ∧
          r.powerKW.isFinite = true) →
      (calculateDailyAnalytics readings date now).powerFactor.isFinite = true) ∧
    (∀ x : GFloat, (max0 x).isNaN = false ∧ (max0 x).isInf = false ∧
      ((x.goLt (GFloat.fin 0) = true ∨ x.isNaN = true ∨ x.isInf = true) →
        max0 x = GFloat.fin 0)) ∧
    (∀ (readings : List Reading) (date : String) (now : Int),
      max0 ((averageFloat (readings.map Reading.voltage)).mul
          (averageFloat (readings.map Reading.current))) = GFloat.fin 0 →
      (calculateDailyAnalytics readings date now).powerFactor = GFloat.fin 0) ∧
    (∀ apparentPower realPower : GFloat, apparentPower.goGt (GFloat.fin 0) = false →
      calculateEfficiency apparentPower realPower = GFloat.fin 0) := by
  refine ⟨?_, ?_, ?_, ?_⟩
  · intro readings date now hfin
    have hV : (averageFloat (readings.map Reading.voltage)).isFinite = true :=
      averageFloat_finite _ (by
        intro x hx
        rcases List.mem_map.mp hx with ⟨r, hr, rfl⟩
        exact (hfin r hr).1)
    have hI : (averageFloat (readings.map Reading.current)).isFinite = true :=
      averageFloat_finite _ (by
        intro x hx
        rcases List.mem_map.mp hx with ⟨r, hr, rfl⟩
        exact (hfin r hr).2.1)
    have hP : (safeAverage (readings.map
        (fun r => Point.mk r.powerKW r.timestamp))).isFinite = true :=
      safeAverage_finite _ (by
        intro p hp
        rcases List.mem_map.mp hp with ⟨r, hr, rfl⟩
        exact (hfin r hr).2.2)
    obtain ⟨v, hv⟩ := GFloat.isFinite_iff.mp hV
    obtain ⟨i, hi⟩ := GFloat.isFinite_iff.mp hI
    simp only [calculateDailyAnalytics]
    refine powerFactor_finite_of _ _ ?_ (GFloat.isFinite_iff.mp hP)
    rw [hv, hi, GFloat.mul_fin, max0_fin]
    exact ⟨_, rfl⟩
  · intro x
    refine ⟨?_, ?_, ?_⟩
    · cases x with
      | fin q => rw [max0_fin]; rfl
      | pinf => rfl
      | ninf => rfl
      | nan => rfl
    · cases x with
      | fin q => rw [max0_fin]; rfl
      | pinf => rfl
      | ninf => rfl
      | nan => rfl
    · intro h
      cases x with
      | fin q =>
          rcases h with h | h | h
          · simp [max0, h]
          · simp [GFloat.isNaN] at h
          · simp [GFloat.isInf] at h
      | pinf => rfl
      | ninf => rfl
      | nan => rfl
  · intro readings date now h
    simp only [calculateDailyAnalytics]
    rw [h]
    norm_num [GFloat.goGt_fin, round3_fin, roundHalfAwayQ]
  · intro app real h
    simp [calculateEfficiency, h]

/-- C7 counterexample: with one reading of finite voltage/current `1` and
NaN power, the apparent power is `1 > 0`, the average power is NaN, and the
resulting `PowerFactor` field is NaN — refuting "never NaN for every
readings list". -/
theorem claim_C7_counterexample :
    (calculateDailyAnalytics [⟨"f1", "m1", 0, GFloat.fin 1, GFloat.fin 1, GFloat.nan⟩]
      "2024-01-01" 0).powerFactor = GFloat.nan := by
  norm_num [calculateDailyAnalytics, safeAverage, aggregatorAverage, aggregatorSum, averageFloat,
    max0, calculateEfficiency, round3, GFloat.add, GFloat.div, GFloat.mul, GFloat.goLt,
    GFloat.goGt_fin, GFloat.isNaN, GFloat.isInf, roundGo]

/-- Witness for C7 (amended) at a concrete all-finite reading list. -/
theorem claim_C7_power_factor_witness :
    (calculateDailyAnalytics [⟨"f1", "m1", 0, GFloat.fin 230, GFloat.fin 10, GFloat.fin 100⟩]
      "2024-01-01" 0).powerFactor.isFinite = true :=
  claim_C7_power_factor.1 [⟨"f1", "m1", 0, GFloat.fin 230, GFloat.fin 10, GFloat.fin 100⟩]
    "2024-01-01" 0 (by decide)
